import Mathlib

/-! # Notes backend (`index.js`)

A shallow embedding of the Express application in `src/index.js`: the two Mongoose
models (`User`, `Note`), the `authMiddleware`, and the six route handlers, written as
pure functions over an explicit `Store` (the two MongoDB collections).

External collaborators are modelled as follows.

* `bcryptjs` and `jsonwebtoken` are parameters, collected in `Env`.
* Values that arrive in a request body or query string are `JsVal`s; a key that is
  absent from the body reads as `JsVal.undefined`, as destructuring does in JavaScript.
* Mongoose casting (`String`, `[String]`, `ObjectId` paths) and the `required`
  validators of the two schemas are embedded as executable functions.
* What Mongoose generates or reads from the clock (`_id`, timestamps, the salt) is an
  explicit input of the operation that consumes it.
* An `async` handler either sends a response or lets an exception escape; the latter is
  `Outcome.rejected`: the handler has written no response. No handler of `index.js` has a
  `try`/`catch`, and no error-handling middleware is registered.
* Requests are served one after the other (`run`); the store is only changed by the
  operation a handler awaits, so a rejected operation leaves the store as it was.
* MongoDB keeps `_id` unique within a collection: inserting a document whose generated
  `_id` is already present fails with a duplicate-key error.
-/

namespace NotesBackend

/-! ## JavaScript values -/

/-- A MongoDB ObjectId, as the number denoted by its 24 hexadecimal digits. -/
abbrev ObjectId := Nat

/-- JavaScript values as produced by the JSON body parser and the query-string parser.
A JSON number is represented by the two observations this program makes of it: whether it
is zero (falsy) and its string conversion. -/
inductive JsVal where
  | undefined
  | null
  | bool (b : Bool)
  | num (isZero : Bool) (text : String)
  | str (s : String)
  | arr (items : List JsVal)
  | obj (fields : List (String × JsVal))

/-- A parsed JSON object: `req.body`. -/
abbrev JsObj := List (String × JsVal)

/-- Property read `o[k]`; an absent key reads as `undefined`. -/
def JsObj.get (o : JsObj) (k : String) : JsVal :=
  (o.lookup k).getD JsVal.undefined

/-- JavaScript truthiness, as used by `if (x)` and `!x`. -/
def truthy : JsVal → Bool
  | .undefined => false
  | .null => false
  | .bool b => b
  | .num isZero _ => !isZero
  | .str s => s != ""
  | .arr _ => true
  | .obj _ => true

/-- `String.prototype.split(sep)` for a one-character separator: the string is cut at every
occurrence of `sep`, and empty pieces are kept. -/
def jsSplit (sep : Char) : List Char → List (List Char)
  | [] => [[]]
  | c :: cs =>
    if c = sep then [] :: jsSplit sep cs
    else
      match jsSplit sep cs with
      | [] => [[c]]
      | w :: ws => (c :: w) :: ws

/-! ## Failures and primitives -/

/-- Exceptions that the libraries raise inside a handler. -/
inductive Failure where
  /-- Mongoose `CastError` (or query-operator error) raised while casting a filter or update. -/
  | castError
  /-- Mongoose `ValidationError` raised by `Model.create`. -/
  | validationError
  /-- MongoDB duplicate-key error on the `_id` index. -/
  | duplicateKey
  /-- The `Illegal arguments` error of bcryptjs when an argument is not a string. -/
  | illegalArguments
  deriving DecidableEq, Repr

/-- The payload that `/login` signs and `jwt.verify` decodes: `{ userId, iat }`, where
`userId` is the `_id` of a stored user. Only `/login` signs with `JWT_SECRET`, so this is
the shape of every payload that verifies. -/
structure Identity where
  userId : ObjectId
  iat : Nat
  deriving DecidableEq, Repr

/-- The external primitives and process configuration. -/
structure Env where
  /-- `process.env.JWT_SECRET`. -/
  JWT_SECRET : String
  /-- The result of `bcrypt.hash(plain, 10)` when the generated salt is `salt`. -/
  hash : (salt : Nat) → (plain : String) → String
  /-- The result of `bcrypt.compare(plain, hash)` on two strings. -/
  compare : (plain : String) → (hash : String) → Bool
  /-- The result of `jwt.sign(payload, secret)`. -/
  sign : Identity → (secret : String) → String
  /-- The result of `jwt.verify(token, secret)`; `none` when it throws. -/
  verify : (token : String) → (secret : String) → Option Identity
  /-- The condition that an array or an object of query operators (`$ne`, `$in`, ...)
  denotes on a `String` path; `none` when Mongoose rejects it. -/
  stringQuery : JsVal → Option (Option String → Bool)
  /-- The condition that a non-scalar query value denotes on the `tags` path; `none` when
  Mongoose rejects it. -/
  tagsQuery : JsVal → Option (Option (List (Option String)) → Bool)

/-! ## Documents and the store -/

/-- A document of the `User` collection (`UserSchema`). -/
structure User where
  _id : ObjectId
  userName : Option String
  password : Option String
  deriving DecidableEq, Repr

/-- A document of the `Note` collection (`NoteSchema`, with `timestamps: true`).
A path that is absent or `null` in the document is `none`. -/
structure Note where
  _id : ObjectId
  title : Option String
  content : Option String
  tags : Option (List (Option String))
  userId : ObjectId
  createdAt : Nat
  updatedAt : Nat
  deriving DecidableEq, Repr

/-- The database: the two collections, in insertion order. -/
structure Store where
  users : List User
  notes : List Note
  deriving DecidableEq, Repr

/-- The database before any request. -/
def Store.empty : Store := { users := [], notes := [] }

/-! ## Mongoose casting -/

/-- Mongoose `castString`: nullish values pass through, strings are kept, numbers and
booleans are converted, a document-like object casts to its string `_id`, and arrays and
other objects are rejected (`none`). -/
def castString : JsVal → Option (Option String)
  | .undefined => some none
  | .null => some none
  | .bool b => some (some (if b then "true" else "false"))
  | .num _ text => some (some text)
  | .str s => some (some s)
  | .arr _ => none
  | .obj fields =>
    match fields.lookup "_id" with
    | some (.str s) => if s = "" then none else some (some s)
    | _ => none

/-- Element-wise `castString` over the items of an array. -/
def castEach : List JsVal → Option (List (Option String))
  | [] => some []
  | v :: vs =>
    match castString v, castEach vs with
    | some s, some ss => some (s :: ss)
    | _, _ => none

/-- Casting of a value set on the `tags: [String]` path of a new document: an absent
value takes the array default `[]`, `null` is kept, and a non-array is wrapped. -/
def castTags : JsVal → Option (Option (List (Option String)))
  | .undefined => some (some [])
  | .null => some none
  | .arr items => (castEach items).map some
  | v => (castString v).map fun s => some [s]

/-- The `required: true` validator of a `String` path: a non-empty string. -/
def requiredString : Option String → Bool
  | some s => s != ""
  | none => false

/-- Value of one hexadecimal digit. -/
def hexDigit (c : Char) : Option Nat :=
  if '0' ≤ c ∧ c ≤ '9' then some (c.toNat - '0'.toNat)
  else if 'a' ≤ c ∧ c ≤ 'f' then some (c.toNat - 'a'.toNat + 10)
  else if 'A' ≤ c ∧ c ≤ 'F' then some (c.toNat - 'A'.toNat + 10)
  else none

/-- Big-endian value of a sequence of hexadecimal digits. -/
def parseHex : List Char → Nat → Option Nat
  | [], acc => some acc
  | c :: cs, acc =>
    match hexDigit c with
    | none => none
    | some d => parseHex cs (16 * acc + d)

/-- Casting of a string to an `ObjectId` path (the `_id` of a filter): a string of exactly
24 hexadecimal digits, in either case, denotes an ObjectId; any other string is rejected
with a `CastError` (`none`). -/
def castObjectId (s : String) : Option ObjectId :=
  if s.data.length = 24 then parseHex s.data 0 else none

/-! ## The `Note` model -/

/-- The document passed to `Note.create` by `POST /notes`. -/
structure NoteInput where
  title : JsVal
  content : JsVal
  tags : JsVal
  userId : ObjectId

/-- `Note.create(doc)`: cast every path, run the `required` validators, then insert.
`newId` is the `_id` Mongoose generates and `now` the time used for both timestamps. -/
def Note.create (s : Store) (doc : NoteInput) (newId : ObjectId) (now : Nat) :
    Except Failure (Store × Note) :=
  match castString doc.title, castString doc.content, castTags doc.tags with
  | some title, some content, some tags =>
    if requiredString title then
      let note : Note :=
        { _id := newId, title := title, content := content, tags := tags,
          userId := doc.userId, createdAt := now, updatedAt := now }
      if s.notes.any (fun n => n._id == newId) then .error .duplicateKey
      else .ok ({ s with notes := s.notes ++ [note] }, note)
    else .error .validationError
  | _, _, _ => .error .validationError

/-- A filter object on the `Note` collection as the handlers build it. -/
structure NoteFilter where
  _id : Option String
  userId : ObjectId
  tags : Option JsVal

/-- A filter after casting, ready to be tested against documents. -/
structure NoteQuery where
  _id : Option ObjectId
  userId : ObjectId
  tags : Option (Option (List (Option String)) → Bool)

/-- The condition `{ tags: v }`: for a string (or a scalar cast to one) it holds of a
document whose `tags` array has that string as an element. -/
def tagsCondition (env : Env) : JsVal → Option (Option (List (Option String)) → Bool)
  | .bool b =>
    some fun tags => (tags.getD []).contains (some (if b then "true" else "false"))
  | .num _ text => some fun tags => (tags.getD []).contains (some text)
  | .str s => some fun tags => (tags.getD []).contains (some s)
  | v => env.tagsQuery v

/-- Casting of the `_id` condition of a filter. -/
def castFilterId : Option String → Option (Option ObjectId)
  | none => some none
  | some i => (castObjectId i).map some

/-- Casting of the `tags` condition of a filter. -/
def castFilterTags (env : Env) :
    Option JsVal → Option (Option (Option (List (Option String)) → Bool))
  | none => some none
  | some v => (tagsCondition env v).map some

/-- Casting of a `Note` filter; fails with `CastError` on an `_id` that is not an ObjectId
or on a `tags` condition that Mongoose rejects. -/
def castNoteFilter (env : Env) (f : NoteFilter) : Except Failure NoteQuery :=
  match castFilterId f._id, castFilterTags env f.tags with
  | some i, some t => .ok { _id := i, userId := f.userId, tags := t }
  | _, _ => .error .castError

/-- Whether a document satisfies a cast filter (all listed conditions hold). -/
def NoteQuery.test (q : NoteQuery) (n : Note) : Bool :=
  (match q._id with
    | some i => n._id == i
    | none => true)
  && n.userId == q.userId
  && (match q.tags with
    | some p => p n.tags
    | none => true)

/-- `Note.find(filter)`: every matching document, in collection order. -/
def Note.find (env : Env) (s : Store) (f : NoteFilter) : Except Failure (List Note) :=
  match castNoteFilter env f with
  | .error e => .error e
  | .ok q => .ok (s.notes.filter q.test)

/-- One path of an update document after casting. -/
inductive Patch (α : Type) where
  /-- The key was `undefined`: Mongoose strips it from the update. -/
  | keep
  /-- The key is set to the cast value. -/
  | set (v : α)

/-- Effect of a patch on the stored value. -/
def Patch.apply {α : Type} (p : Patch α) (old : α) : α :=
  match p with
  | .keep => old
  | .set v => v

/-- The update document `{ title, content, tags }` after casting. -/
structure NoteUpdate where
  title : Patch (Option String)
  content : Patch (Option String)
  tags : Patch (Option (List (Option String)))

/-- Casting of one `String` path of an update. -/
def castStringPatch : JsVal → Option (Patch (Option String))
  | .undefined => some .keep
  | v => (castString v).map Patch.set

/-- Casting of the `tags` path of an update. -/
def castTagsPatch : JsVal → Option (Patch (Option (List (Option String))))
  | .undefined => some .keep
  | v => (castTags v).map Patch.set

/-- Casting of the update document of `PUT /notes/:id`; `none` is a `CastError`. -/
def castNoteUpdate (title content tags : JsVal) : Option NoteUpdate :=
  match castStringPatch title, castStringPatch content, castTagsPatch tags with
  | some t, some c, some g => some { title := t, content := c, tags := g }
  | _, _, _ => none

/-- The document after `$set` of the cast update; `timestamps` refreshes `updatedAt`. -/
def NoteUpdate.applyTo (u : NoteUpdate) (now : Nat) (n : Note) : Note :=
  { n with
    title := u.title.apply n.title
    content := u.content.apply n.content
    tags := u.tags.apply n.tags
    updatedAt := now }

/-- Replace the first document satisfying `p` by its image under `f`; returns the new
collection and the updated document, if any. -/
def updateFirst (p : Note → Bool) (f : Note → Note) : List Note → List Note × Option Note
  | [] => ([], none)
  | n :: ns =>
    if p n then (f n :: ns, some (f n))
    else ((n :: (updateFirst p f ns).1), (updateFirst p f ns).2)

/-- Remove the first document satisfying `p`. -/
def deleteFirst (p : Note → Bool) : List Note → List Note
  | [] => []
  | n :: ns => if p n then ns else n :: deleteFirst p ns

/-- `Note.findOneAndUpdate(filter, update, { new: true })`: the updated document, or
`null` (`none`) when no document matches. -/
def Note.findOneAndUpdate (env : Env) (s : Store) (f : NoteFilter)
    (title content tags : JsVal) (now : Nat) : Except Failure (Store × Option Note) :=
  match castNoteFilter env f, castNoteUpdate title content tags with
  | .ok q, some u =>
    let r := updateFirst q.test (u.applyTo now) s.notes
    .ok ({ s with notes := r.1 }, r.2)
  | .error e, _ => .error e
  | _, none => .error .castError

/-- `Note.deleteOne(filter)`: removes the first matching document, if any. -/
def Note.deleteOne (env : Env) (s : Store) (f : NoteFilter) : Except Failure Store :=
  match castNoteFilter env f with
  | .error e => .error e
  | .ok q => .ok { s with notes := deleteFirst q.test s.notes }

/-! ## The `User` model -/

/-- Whether an object key is a query operator (`$...`). -/
def isOperator (k : String) : Bool :=
  k.data.head? == some '$'

/-- The condition `{ userName: v }` after casting. A scalar is cast to a string and
compared for equality; an array or an object made of query operators denotes whatever
`Env.stringQuery` says; an object mixing operators with other keys is rejected. -/
def userNameCondition (env : Env) : JsVal → Option (Option String → Bool)
  | .arr items => env.stringQuery (.arr items)
  | .obj fields =>
    if fields.any (fun kv => isOperator kv.1) then
      if fields.all (fun kv => isOperator kv.1) then env.stringQuery (.obj fields)
      else none
    else (castString (.obj fields)).map fun v => fun stored => stored == v
  | v => (castString v).map fun v => fun stored => stored == v

/-- `User.findOne({ userName: username })`: the first matching document or `null`. -/
def User.findOne (env : Env) (s : Store) (username : JsVal) : Except Failure (Option User) :=
  match userNameCondition env username with
  | none => .error .castError
  | some cond => .ok (s.users.find? fun u => cond u.userName)

/-- `User.create({ userName, password })`; `newId` is the generated `_id`. -/
def User.create (s : Store) (userName : JsVal) (password : String) (newId : ObjectId) :
    Except Failure (Store × User) :=
  match castString userName with
  | none => .error .validationError
  | some name =>
    let user : User := { _id := newId, userName := name, password := some password }
    if s.users.any (fun u => u._id == newId) then .error .duplicateKey
    else .ok ({ s with users := s.users ++ [user] }, user)

/-! ## bcryptjs -/

/-- `bcrypt.hash(s, 10)`: rejects unless `s` is a string. -/
def bcryptHash (env : Env) (s : JsVal) (salt : Nat) : Except Failure String :=
  match s with
  | .str plain => .ok (env.hash salt plain)
  | _ => .error .illegalArguments

/-- `bcrypt.compare(s, hash)`: rejects unless both arguments are strings. -/
def bcryptCompare (env : Env) (s : JsVal) (hash : Option String) : Except Failure Bool :=
  match s, hash with
  | .str plain, some h => .ok (env.compare plain h)
  | _, _ => .error .illegalArguments

/-! ## Responses -/

/-- The JSON document passed to `res.json`. -/
inductive ResBody where
  | message (text : String)
  | token (token : String)
  | note (n : Note)
  | notes (ns : List Note)
  | null
  deriving DecidableEq, Repr

/-- What a handler did with the request. -/
inductive Outcome where
  /-- The handler called `res.status(status).json(body)` (`res.json` alone is status 200). -/
  | sent (status : Nat) (body : ResBody)
  /-- An exception escaped the `async` handler: it wrote no response. -/
  | rejected (e : Failure)
  deriving DecidableEq, Repr

/-- What `authMiddleware` did with the request. -/
inductive AuthResult where
  /-- `req.user = decoded; next()`. -/
  | next (user : Identity)
  /-- The middleware answered itself and the handler does not run. -/
  | reply (status : Nat) (body : ResBody)
  deriving DecidableEq, Repr

/-! ## Middleware and handlers -/

/-- `authHeader.split(" ")[1]`: the piece at index 1, or `undefined` (`none`). -/
def headerToken (authHeader : String) : Option String :=
  ((jsSplit ' ' authHeader.data)[1]?).map String.mk

/-- `authMiddleware` (index.js 33-54). -/
def authMiddleware (env : Env) (authHeader : Option String) : AuthResult :=
  match authHeader with
  | none => .reply 401 (.message "No token provided")
  | some h =>
    if h = "" then .reply 401 (.message "No token provided")
    else
      match headerToken h with
      | none => .reply 401 (.message "Invalid token")
      | some token =>
        match env.verify token env.JWT_SECRET with
        | some decoded => .next decoded
        | none => .reply 401 (.message "Invalid token")

/-- `POST /notes` (index.js 78-91), after the middleware attached `user`. -/
def postNotes (s : Store) (user : Identity) (body : JsObj) (newId : ObjectId) (now : Nat) :
    Store × Outcome :=
  let userId := user.userId
  let title := body.get "title"
  let content := body.get "content"
  let tags := body.get "tags"
  match Note.create s { title := title, content := content, tags := tags, userId := userId }
      newId now with
  | .error e => (s, .rejected e)
  | .ok (s', note) => (s', .sent 200 (.note note))

/-- `GET /notes` (index.js 96-109); `tag` is `req.query.tag`. -/
def getNotes (env : Env) (s : Store) (user : Identity) (tag : JsVal) : Store × Outcome :=
  let filter : NoteFilter :=
    { _id := none, userId := user.userId, tags := if truthy tag then some tag else none }
  match Note.find env s filter with
  | .error e => (s, .rejected e)
  | .ok notes => (s, .sent 200 (.notes notes))

/-- `PUT /notes/:id` (index.js 112-124); `id` is `req.params.id`. -/
def putNotesId (env : Env) (s : Store) (user : Identity) (id : String) (body : JsObj)
    (now : Nat) : Store × Outcome :=
  let title := body.get "title"
  let content := body.get "content"
  let tags := body.get "tags"
  match Note.findOneAndUpdate env s { _id := some id, userId := user.userId, tags := none }
      title content tags now with
  | .error e => (s, .rejected e)
  | .ok (s', some note) => (s', .sent 200 (.note note))
  | .ok (s', none) => (s', .sent 200 .null)

/-- `DELETE /notes/:id` (index.js 127-136). -/
def deleteNotesId (env : Env) (s : Store) (user : Identity) (id : String) : Store × Outcome :=
  match Note.deleteOne env s { _id := some id, userId := user.userId, tags := none } with
  | .error e => (s, .rejected e)
  | .ok s' => (s', .sent 200 (.message "Note deleted"))

/-- `POST /signup` (index.js 145-168); `newId` and `salt` are what Mongoose and bcryptjs
generate for this request. -/
def postSignup (env : Env) (s : Store) (body : JsObj) (newId : ObjectId) (salt : Nat) :
    Store × Outcome :=
  let username := body.get "username"
  let password := body.get "password"
  if !truthy username || !truthy password then (s, .sent 400 (.message "Missing fields"))
  else
    match User.findOne env s username with
    | .error e => (s, .rejected e)
    | .ok (some _) => (s, .sent 409 (.message "Same user name exists"))
    | .ok none =>
      match bcryptHash env password salt with
      | .error e => (s, .rejected e)
      | .ok hashPassword =>
        match User.create s username hashPassword newId with
        | .error e => (s, .rejected e)
        | .ok (s', _) => (s', .sent 200 (.message "User created"))

/-- `POST /login` (index.js 170-193); `now` is the time `jwt.sign` stamps as `iat`. -/
def postLogin (env : Env) (s : Store) (body : JsObj) (now : Nat) : Store × Outcome :=
  let username := body.get "username"
  let password := body.get "password"
  match User.findOne env s username with
  | .error e => (s, .rejected e)
  | .ok none => (s, .sent 401 (.message "User not found"))
  | .ok (some user) =>
    match bcryptCompare env password user.password with
    | .error e => (s, .rejected e)
    | .ok false => (s, .sent 401 (.message "Wrong Password"))
    | .ok true =>
      (s, .sent 200 (.token (env.sign { userId := user._id, iat := now } env.JWT_SECRET)))

/-! ## Requests -/

/-- The six routes of the application, with their path parameter. -/
inductive Route where
  | postNotes
  | getNotes
  | putNotesId (id : String)
  | deleteNotesId (id : String)
  | postSignup
  | postLogin

/-- One HTTP request together with the values the runtime generates while serving it. -/
structure Request where
  route : Route
  authorization : Option String
  body : JsObj
  tag : JsVal
  newId : ObjectId
  salt : Nat
  now : Nat

/-- Run a protected handler behind `authMiddleware`. -/
def protect (env : Env) (s : Store) (authHeader : Option String)
    (handler : Identity → Store × Outcome) : Store × Outcome :=
  match authMiddleware env authHeader with
  | .reply status body => (s, .sent status body)
  | .next user => handler user

/-- Serve one request: route dispatch as registered with `app.post/get/put/delete`. -/
def serve (env : Env) (s : Store) (r : Request) : Store × Outcome :=
  match r.route with
  | .postNotes => protect env s r.authorization fun u => postNotes s u r.body r.newId r.now
  | .getNotes => protect env s r.authorization fun u => getNotes env s u r.tag
  | .putNotesId id => protect env s r.authorization fun u => putNotesId env s u id r.body r.now
  | .deleteNotesId id => protect env s r.authorization fun u => deleteNotesId env s u id
  | .postSignup => postSignup env s r.body r.newId r.salt
  | .postLogin => postLogin env s r.body r.now

/-- The store after serving a sequence of requests one after the other. -/
def run (env : Env) (s : Store) : List Request → Store
  | [] => s
  | r :: rs => run env (serve env s r).1 rs

/-- The stores passed through while serving a sequence of requests, the initial one first. -/
def history (env : Env) (s : Store) : List Request → List Store
  | [] => [s]
  | r :: rs => s :: history env (serve env s r).1 rs

/-! ## A concrete environment

Used to evaluate the handlers on explicit inputs. Tokens are the letter `J` followed by
the user id and the issue time in unary; hashes are the plain text behind a `#`. -/

/-- Token format of the concrete environment. -/
def demoSign (p : Identity) : String :=
  String.mk ('J' :: (List.replicate p.userId 'u' ++ List.replicate p.iat 't'))

/-- Decoder for `demoSign`; `none` on anything else. -/
def demoVerify (token : String) : Option Identity :=
  match token.data with
  | [] => none
  | c :: rest =>
    if c = 'J' ∧ (rest.dropWhile (fun x => x == 'u')).all (fun x => x == 't') then
      some { userId := (rest.takeWhile (fun x => x == 'u')).length,
             iat := (rest.dropWhile (fun x => x == 'u')).length }
    else none

/-- A concrete instance of the primitives. Arrays and operator objects are rejected by its
query casters. -/
def demoEnv : Env where
  JWT_SECRET := "k"
  hash := fun _ plain => String.mk ('#' :: plain.data)
  compare := fun plain hash => hash == String.mk ('#' :: plain.data)
  sign := fun p _ => demoSign p
  verify := fun token _ => demoVerify token
  stringQuery := fun _ => none
  tagsQuery := fun _ => none

/-- A stored identity `alice` with id 1, as `/signup` creates it under `demoEnv`. -/
def demoUser : User := { _id := 1, userName := some "alice", password := some "#pw1" }

/-- A note of user 1 with id `0x0a`. -/
def demoNote : Note :=
  { _id := 10, title := some "t", content := none, tags := some [some "work"],
    userId := 1, createdAt := 0, updatedAt := 0 }

/-- A store holding `demoUser` and `demoNote`. -/
def demoStore : Store := { users := [demoUser], notes := [demoNote] }

/-- The identity of user 1. -/
def demoAlice : Identity := { userId := 1, iat := 0 }

/-- The identity of another user, 2. -/
def demoMallory : Identity := { userId := 2, iat := 0 }

/-- A `POST /signup` request for the given credentials; `newId` is the generated id. -/
def signupRequest (username password : String) (newId : ObjectId) : Request :=
  { route := .postSignup, authorization := none,
    body := [("username", .str username), ("password", .str password)],
    tag := .undefined, newId := newId, salt := 0, now := 0 }

/-- A sequence of requests against `demoStore`: user 2 tries to update the note of user 1,
user 1 updates it, and somebody signs up. -/
def demoRequests : List Request :=
  [{ route := .putNotesId "00000000000000000000000a", authorization := some "Bearer Juu",
     body := [("title", .str "mine")], tag := .undefined, newId := 20, salt := 0, now := 1 },
   { route := .putNotesId "00000000000000000000000a", authorization := some "Bearer Ju",
     body := [("title", .str "t2"), ("userId", .str "000000000000000000000002")],
     tag := .undefined, newId := 21, salt := 0, now := 2 },
   signupRequest "bob" "pw" 3]

/-! ## Observations used in the statements -/

/-- How one request may change the `Note` collection: every note afterwards either
continues a note from before with the same id and owner, or carries an id that no note
had before; and unique ids stay unique. -/
def NotesStep (s s' : Store) : Prop :=
  (∀ m ∈ s'.notes,
    (∃ x ∈ s.notes, x._id = m._id ∧ x.userId = m.userId) ∨ ∀ x ∈ s.notes, x._id ≠ m._id) ∧
  ((s.notes.map fun n => n._id).Nodup → (s'.notes.map fun n => n._id).Nodup)



/-- The notes a response carries. -/
def Outcome.returned : Outcome → List Note
  | .sent _ (.note n) => [n]
  | .sent _ (.notes ns) => ns
  | _ => []

/-- The status code of the response, when the handler sent one. -/
def Outcome.status : Outcome → Option Nat
  | .sent status _ => some status
  | .rejected _ => none

/-- Whether a note carries the string `t` as one of its tags. -/
def Note.hasTag (n : Note) (t : String) : Bool :=
  (n.tags.getD []).contains (some t)

/-- Whether a note is the one addressed by the path parameter `id` on behalf of `owner`. -/
abbrev Note.isOwned (n : Note) (id : String) (owner : ObjectId) : Prop :=
  castObjectId id = some n._id ∧ n.userId = owner

/-! ## The extraction rule as the specification words it -/

/-- The pieces of a character sequence between separator characters, empty pieces kept. -/
def splitWhere (p : Char → Bool) : List Char → List (List Char)
  | [] => [[]]
  | c :: cs =>
    if p c then [] :: splitWhere p cs
    else
      match splitWhere p cs with
      | [] => [[c]]
      | w :: ws => (c :: w) :: ws

/-- The whitespace-separated tokens of a header value: its maximal runs of characters
that are not whitespace. -/
def whitespaceTokens (h : String) : List String :=
  ((splitWhere Char.isWhitespace h.data).filter fun w => !w.isEmpty).map String.mk

/-- The credential as the specification describes it: the second whitespace-separated
token of the header value. -/
def secondWhitespaceToken (h : String) : Option String :=
  (whitespaceTokens h)[1]?

/-! ## Basic facts about the model operations -/

theorem test_userId {q : NoteQuery} {n : Note} (h : q.test n = true) : n.userId = q.userId := by
  simp only [NoteQuery.test, Bool.and_eq_true, beq_iff_eq] at h
  exact h.1.2

theorem test_id {q : NoteQuery} {n : Note} {i : ObjectId} (hq : q._id = some i)
    (h : q.test n = true) : n._id = i := by
  simp only [NoteQuery.test, hq, Bool.and_eq_true, beq_iff_eq] at h
  exact h.1.1

theorem castNoteFilter_userId {env : Env} {f : NoteFilter} {q : NoteQuery}
    (h : castNoteFilter env f = .ok q) : q.userId = f.userId := by
  unfold castNoteFilter at h
  cases h1 : castFilterId f._id <;> cases h2 : castFilterTags env f.tags <;>
    simp only [h1, h2] at h <;> cases h
  rfl

/-- The cast of the filter `{ _id: id, userId }` used by `PUT` and `DELETE`. -/
theorem castNoteFilter_byId (env : Env) (id : String) (owner : ObjectId) :
    castNoteFilter env { _id := some id, userId := owner, tags := none } =
      match castObjectId id with
      | some i => .ok { _id := some i, userId := owner, tags := none }
      | none => .error .castError := by
  simp only [castNoteFilter, castFilterId, castFilterTags]
  cases castObjectId id <;> rfl

theorem applyTo_userId (u : NoteUpdate) (now : Nat) (n : Note) :
    (u.applyTo now n).userId = n.userId := rfl

theorem applyTo_id (u : NoteUpdate) (now : Nat) (n : Note) :
    (u.applyTo now n)._id = n._id := rfl

theorem updateFirst_keeps {p : Note → Bool} {f : Note → Note} {n : Note} :
    ∀ {l : List Note}, n ∈ l → p n = false → n ∈ (updateFirst p f l).1
  | x :: xs, hmem, hp => by
    unfold updateFirst
    by_cases hx : p x = true
    · rw [if_pos hx]
      rcases List.mem_cons.1 hmem with rfl | h
      · rw [hp] at hx; cases hx
      · exact List.mem_cons_of_mem _ h
    · rw [if_neg hx]
      rcases List.mem_cons.1 hmem with rfl | h
      · exact List.mem_cons_self _ _
      · exact List.mem_cons_of_mem _ (updateFirst_keeps h hp)

theorem updateFirst_result {p : Note → Bool} {f : Note → Note} {m : Note} :
    ∀ {l : List Note}, (updateFirst p f l).2 = some m → ∃ x ∈ l, p x = true ∧ m = f x
  | [], h => by simp [updateFirst] at h
  | x :: xs, h => by
    unfold updateFirst at h
    by_cases hx : p x = true
    · rw [if_pos hx] at h
      exact ⟨x, List.mem_cons_self _ _, hx, (Option.some.inj h).symm⟩
    · rw [if_neg hx] at h
      obtain ⟨y, hy, hpy, hm⟩ := updateFirst_result h
      exact ⟨y, List.mem_cons_of_mem _ hy, hpy, hm⟩

theorem updateFirst_none {p : Note → Bool} {f : Note → Note} :
    ∀ {l : List Note}, (∀ x ∈ l, p x = false) → updateFirst p f l = (l, none)
  | [], _ => rfl
  | x :: xs, h => by
    have hx : ¬ p x = true := by simp [h x (List.mem_cons_self _ _)]
    have ih := updateFirst_none (p := p) (f := f) (l := xs)
      (fun y hy => h y (List.mem_cons_of_mem _ hy))
    unfold updateFirst
    rw [if_neg hx, ih]

theorem deleteFirst_keeps {p : Note → Bool} {n : Note} :
    ∀ {l : List Note}, n ∈ l → p n = false → n ∈ deleteFirst p l
  | x :: xs, hmem, hp => by
    unfold deleteFirst
    by_cases hx : p x = true
    · rw [if_pos hx]
      rcases List.mem_cons.1 hmem with rfl | h
      · rw [hp] at hx; cases hx
      · exact h
    · rw [if_neg hx]
      rcases List.mem_cons.1 hmem with rfl | h
      · exact List.mem_cons_self _ _
      · exact List.mem_cons_of_mem _ (deleteFirst_keeps h hp)

theorem deleteFirst_none {p : Note → Bool} :
    ∀ {l : List Note}, (∀ x ∈ l, p x = false) → deleteFirst p l = l
  | [], _ => rfl
  | x :: xs, h => by
    have hx : ¬ p x = true := by simp [h x (List.mem_cons_self _ _)]
    unfold deleteFirst
    rw [if_neg hx, deleteFirst_none fun y hy => h y (List.mem_cons_of_mem _ hy)]

/-- A filter scoped to `owner` rejects every note of a different owner. -/
theorem test_foreign {q : NoteQuery} {n : Note} (h : n.userId ≠ q.userId) :
    q.test n = false := by
  cases hq : q.test n
  · rfl
  · exact absurd (test_userId hq) h

/-! ## Handler outcomes, case by case -/

theorem getNotes_eq (env : Env) (s : Store) (u : Identity) (tag : JsVal) :
    getNotes env s u tag =
      match castNoteFilter env
          { _id := none, userId := u.userId, tags := if truthy tag then some tag else none } with
      | .error e => (s, .rejected e)
      | .ok q => (s, .sent 200 (.notes (s.notes.filter q.test))) := by
  unfold getNotes Note.find
  dsimp only
  cases castNoteFilter env
    { _id := none, userId := u.userId, tags := if truthy tag then some tag else none } <;> rfl

theorem putNotesId_eq (env : Env) (s : Store) (u : Identity) (id : String) (body : JsObj)
    (now : Nat) :
    putNotesId env s u id body now =
      match castObjectId id,
        castNoteUpdate (body.get "title") (body.get "content") (body.get "tags") with
      | some i, some upd =>
        let q : NoteQuery := { _id := some i, userId := u.userId, tags := none }
        match (updateFirst q.test (upd.applyTo now) s.notes).2 with
        | some m =>
          ({ s with notes := (updateFirst q.test (upd.applyTo now) s.notes).1 },
            .sent 200 (.note m))
        | none =>
          ({ s with notes := (updateFirst q.test (upd.applyTo now) s.notes).1 },
            .sent 200 .null)
      | _, _ => (s, .rejected .castError) := by
  unfold putNotesId Note.findOneAndUpdate
  dsimp only
  rw [castNoteFilter_byId]
  cases castObjectId id <;>
    cases castNoteUpdate (body.get "title") (body.get "content") (body.get "tags") <;>
    dsimp only
  rename_i i upd
  cases hm : (updateFirst (NoteQuery.test { _id := some i, userId := u.userId, tags := none })
    (upd.applyTo now) s.notes).2 <;> rfl

theorem deleteNotesId_eq (env : Env) (s : Store) (u : Identity) (id : String) :
    deleteNotesId env s u id =
      match castObjectId id with
      | some i =>
        let q : NoteQuery := { _id := some i, userId := u.userId, tags := none }
        ({ s with notes := deleteFirst q.test s.notes }, .sent 200 (.message "Note deleted"))
      | none => (s, .rejected .castError) := by
  unfold deleteNotesId Note.deleteOne
  rw [castNoteFilter_byId]
  cases castObjectId id <;> rfl

/-! ## Lemmas: signup conflict -/

theorem findOne_str (env : Env) (s : Store) (x : String) :
    User.findOne env s (.str x) = .ok (s.users.find? fun u => u.userName == some x) := rfl

theorem find_userName_of_mem {users : List User} {x : String}
    (h : ∃ u ∈ users, u.userName = some x) :
    ∃ v, users.find? (fun u => u.userName == some x) = some v := by
  obtain ⟨u, hu, hx⟩ := h
  cases hf : users.find? (fun u => u.userName == some x) with
  | some v => exact ⟨v, rfl⟩
  | none =>
    rw [List.find?_eq_none] at hf
    exact absurd (by simpa using hx) (hf u hu)

/-! ## Lemmas: note creation without a title -/

/-- `Note.create` rejects a document whose title is absent or empty, whatever the other
paths hold. -/
theorem create_untitled (s : Store) (doc : NoteInput) (newId : ObjectId) (now : Nat)
    (ht : requiredString ((castString doc.title).getD none) = false) :
    Note.create s doc newId now = .error .validationError := by
  unfold Note.create
  cases h1 : castString doc.title <;> cases h2 : castString doc.content <;>
    cases h3 : castTags doc.tags <;> simp only []
  rw [h1] at ht
  simp only [Option.getD_some] at ht
  simp [ht]

/-! ## Lemmas: update of a missing or foreign note -/

/-- When no note is addressed by `(id, owner)`, the cast filter matches nothing. -/
theorem test_of_not_owned {s : Store} {id : String} {owner i : ObjectId}
    (hid : castObjectId id = some i) (hnone : ∀ n ∈ s.notes, ¬ n.isOwned id owner) :
    ∀ x ∈ s.notes,
      NoteQuery.test { _id := some i, userId := owner, tags := none } x = false := by
  intro x hx
  cases ht : NoteQuery.test { _id := some i, userId := owner, tags := none } x
  · rfl
  · exfalso
    apply hnone x hx
    refine ⟨?_, test_userId ht⟩
    rw [hid, test_id (q := { _id := some i, userId := owner, tags := none }) rfl ht]

/-! ## Lemmas: delete idempotence -/

theorem deleteFirst_erase {p : Note → Bool} :
    ∀ l : List Note, deleteFirst p l = l ∨ ∃ n ∈ l, p n = true ∧ deleteFirst p l = l.erase n
  | [] => Or.inl rfl
  | x :: xs => by
    unfold deleteFirst
    by_cases hx : p x = true
    · rw [if_pos hx]
      exact Or.inr ⟨x, List.mem_cons_self _ _, hx, (List.erase_cons_head x xs).symm⟩
    · rw [if_neg hx]
      rcases deleteFirst_erase (p := p) xs with h | ⟨n, hn, hpn, h⟩
      · exact Or.inl (by rw [h])
      · refine Or.inr ⟨n, List.mem_cons_of_mem _ hn, hpn, ?_⟩
        have hne : ¬ (x == n) = true := by
          intro hxn
          rw [beq_iff_eq] at hxn
          exact hx (hxn ▸ hpn)
        rw [h, List.erase_cons_tail hne]

/-- With unique ids, a second `deleteFirst` on a condition that pins the id removes nothing. -/
theorem deleteFirst_idem {p : Note → Bool} {i : ObjectId} (hp : ∀ n, p n = true → n._id = i) :
    ∀ l : List Note, (l.map fun n => n._id).Nodup →
      deleteFirst p (deleteFirst p l) = deleteFirst p l
  | [], _ => rfl
  | x :: xs, hnd => by
    rw [List.map_cons, List.nodup_cons] at hnd
    by_cases hx : p x = true
    · have h1 : deleteFirst p (x :: xs) = xs := by
        unfold deleteFirst
        rw [if_pos hx]
      rw [h1]
      apply deleteFirst_none
      intro y hy
      cases hy' : p y
      · rfl
      · exfalso
        apply hnd.1
        rw [hp x hx, ← hp y hy']
        exact List.mem_map_of_mem _ hy
    · have h1 : deleteFirst p (x :: xs) = x :: deleteFirst p xs := by
        conv_lhs => unfold deleteFirst
        rw [if_neg hx]
      rw [h1]
      conv_lhs => unfold deleteFirst
      rw [if_neg hx, deleteFirst_idem hp xs hnd.2]

/-! ## Lemmas: the identity middleware -/

theorem jsSplit_ne_nil (sep : Char) : ∀ l : List Char, jsSplit sep l ≠ []
  | [] => by simp [jsSplit]
  | c :: cs => by
    unfold jsSplit
    split
    · simp
    · split <;> simp

theorem jsSplit_cons_ne {sep c : Char} (cs : List Char) (h : c ≠ sep) :
    jsSplit sep (c :: cs) =
      match jsSplit sep cs with
      | [] => [[c]]
      | w :: ws => (c :: w) :: ws := by
  conv_lhs => unfold jsSplit
  rw [if_neg h]

theorem jsSplit_of_not_mem {sep : Char} : ∀ {w : List Char}, sep ∉ w → jsSplit sep w = [w]
  | [], _ => rfl
  | c :: cs, h => by
    rw [List.mem_cons, not_or] at h
    rw [jsSplit_cons_ne cs (fun hc => h.1 hc.symm), jsSplit_of_not_mem h.2]

theorem jsSplit_append {sep : Char} (rest : List Char) :
    ∀ {w : List Char}, sep ∉ w → jsSplit sep (w ++ sep :: rest) = w :: jsSplit sep rest
  | [], _ => by simp [jsSplit]
  | c :: cs, h => by
    rw [List.mem_cons, not_or] at h
    rw [List.cons_append, jsSplit_cons_ne _ (fun hc => h.1 hc.symm), jsSplit_append rest h.2]

/-- Every character sequence either has no separator or splits at its first one. -/
theorem first_sep (sep : Char) :
    ∀ l : List Char, sep ∉ l ∨ ∃ w rest, sep ∉ w ∧ l = w ++ sep :: rest
  | [] => Or.inl (List.not_mem_nil _)
  | c :: cs => by
    by_cases hc : c = sep
    · exact Or.inr ⟨[], cs, List.not_mem_nil _, by rw [hc]; rfl⟩
    · rcases first_sep sep cs with h | ⟨w, rest, hw, h⟩
      · left
        rw [List.mem_cons, not_or]
        exact ⟨fun e => hc e.symm, h⟩
      · right
        refine ⟨c :: w, rest, ?_, by rw [h]; rfl⟩
        rw [List.mem_cons, not_or]
        exact ⟨fun e => hc e.symm, hw⟩

/-- The credential `authHeader.split(" ")[1]` is the piece between the first space and the
next one (or the end), whatever precedes the first space. -/
theorem headerToken_iff (h c : String) :
    headerToken h = some c ↔
      ∃ scheme : List Char, ' ' ∉ scheme ∧ ' ' ∉ c.data ∧
        (h.data = scheme ++ ' ' :: c.data ∨
          ∃ rest, h.data = scheme ++ ' ' :: (c.data ++ ' ' :: rest)) := by
  unfold headerToken
  constructor
  · intro hc
    rcases first_sep ' ' h.data with hno | ⟨w, r, hw, hr⟩
    · rw [jsSplit_of_not_mem hno] at hc
      simp at hc
    · rw [hr, jsSplit_append r hw] at hc
      rcases first_sep ' ' r with hno | ⟨w2, r2, hw2, hr2⟩
      · rw [jsSplit_of_not_mem hno] at hc
        simp only [List.getElem?_cons_succ, List.getElem?_cons_zero, Option.map_some',
          Option.some.injEq] at hc
        subst hc
        exact ⟨w, hw, hno, Or.inl hr⟩
      · rw [hr2, jsSplit_append r2 hw2] at hc
        simp only [List.getElem?_cons_succ, List.getElem?_cons_zero, Option.map_some',
          Option.some.injEq] at hc
        subst hc
        exact ⟨w, hw, hw2, Or.inr ⟨r2, by rw [hr, hr2]⟩⟩
  · rintro ⟨scheme, hs, hc, hd | ⟨rest, hd⟩⟩
    · rw [hd, jsSplit_append _ hs, jsSplit_of_not_mem hc]
      rfl
    · rw [hd, jsSplit_append _ hs, jsSplit_append _ hc]
      simp

/-- When `authMiddleware` lets a request through, and with which identity. -/
theorem authMiddleware_next_iff (env : Env) (authHeader : Option String) (user : Identity) :
    authMiddleware env authHeader = .next user ↔
      ∃ h c, authHeader = some h ∧ h ≠ "" ∧ headerToken h = some c ∧
        env.verify c env.JWT_SECRET = some user := by
  constructor
  · intro hnext
    unfold authMiddleware at hnext
    cases authHeader with
    | none => cases hnext
    | some h =>
      dsimp only at hnext
      by_cases he : h = ""
      · rw [if_pos he] at hnext; cases hnext
      · rw [if_neg he] at hnext
        cases ht : headerToken h with
        | none => rw [ht] at hnext; cases hnext
        | some c =>
          rw [ht] at hnext
          dsimp only at hnext
          cases hv : env.verify c env.JWT_SECRET with
          | none => rw [hv] at hnext; cases hnext
          | some d =>
            rw [hv] at hnext
            cases hnext
            exact ⟨h, c, rfl, he, ht, hv⟩
  · rintro ⟨h, c, rfl, he, ht, hv⟩
    unfold authMiddleware
    dsimp only
    rw [if_neg he, ht]
    dsimp only
    rw [hv]

/-- Whenever `authMiddleware` does not let a request through, it answers 401. -/
theorem authMiddleware_reply (env : Env) (authHeader : Option String)
    (hno : ∀ user, authMiddleware env authHeader ≠ .next user) :
    ∃ msg, authMiddleware env authHeader = .reply 401 (.message msg) := by
  unfold authMiddleware at hno ⊢
  cases authHeader with
  | none => exact ⟨_, rfl⟩
  | some h =>
    dsimp only at hno ⊢
    by_cases he : h = ""
    · rw [if_pos he]; exact ⟨_, rfl⟩
    · rw [if_neg he] at hno ⊢
      cases ht : headerToken h with
      | none => exact ⟨_, rfl⟩
      | some c =>
        rw [ht] at hno
        dsimp only at hno ⊢
        cases hv : env.verify c env.JWT_SECRET with
        | none => exact ⟨_, rfl⟩
        | some d =>
          rw [hv] at hno
          exact absurd rfl (hno d)

/-! ## Lemmas: signup, login, verify -/

/-- What a successful `POST /signup` with string credentials did to the store. -/
theorem signup_created {env : Env} {s : Store} {username password : String}
    {newId : ObjectId} {salt : Nat}
    (h : (postSignup env s [("username", .str username), ("password", .str password)]
      newId salt).2 = .sent 200 (.message "User created")) :
    s.users.find? (fun u => u.userName == some username) = none ∧
    (postSignup env s [("username", .str username), ("password", .str password)]
      newId salt).1 =
      { s with users := s.users ++
          [{ _id := newId, userName := some username,
             password := some (env.hash salt password) }] } := by
  have hgu : JsObj.get [("username", JsVal.str username), ("password", .str password)]
      "username" = .str username := rfl
  have hgp : JsObj.get [("username", JsVal.str username), ("password", .str password)]
      "password" = .str password := rfl
  unfold postSignup at h ⊢
  simp only [hgu, hgp, findOne_str] at h ⊢
  split at h
  · cases h
  · cases hf : s.users.find? (fun u => u.userName == some username) with
    | some v => rw [hf] at h; cases h
    | none =>
      rw [hf] at h
      rw [if_neg (by assumption)]
      simp only [bcryptHash, User.create, castString] at h ⊢
      by_cases hany : (s.users.any fun u => u._id == newId) = true
      · rw [if_pos hany] at h
        cases h
      · rw [if_neg hany]
        exact ⟨trivial, rfl⟩

/-- A signup with non-empty string credentials, a free username and a fresh id succeeds. -/
theorem signup_succeeds (env : Env) (s : Store) (username password : String)
    (newId : ObjectId) (salt : Nat) (hu : username ≠ "") (hp : password ≠ "")
    (hname : ∀ u ∈ s.users, u.userName ≠ some username)
    (hid : ∀ u ∈ s.users, u._id ≠ newId) :
    (postSignup env s [("username", .str username), ("password", .str password)]
      newId salt).2 = .sent 200 (.message "User created") := by
  have hgu : JsObj.get [("username", JsVal.str username), ("password", .str password)]
      "username" = .str username := rfl
  have hgp : JsObj.get [("username", JsVal.str username), ("password", .str password)]
      "password" = .str password := rfl
  have hfind : s.users.find? (fun u => u.userName == some username) = none := by
    rw [List.find?_eq_none]
    intro u hu'
    simpa using hname u hu'
  have hany : ¬ (s.users.any fun u => u._id == newId) = true := by
    simpa using hid
  have htu : (username != "") = true := by simpa using hu
  have htp : (password != "") = true := by simpa using hp
  unfold postSignup
  simp only [hgu, hgp, findOne_str, hfind, truthy, htu, htp, bcryptHash, User.create,
    castString, if_neg hany]
  rfl

/-! ### The concrete environment satisfies the assumptions on the primitives -/

theorem demo_takeWhile (t : Nat) : ∀ u : Nat,
    (List.replicate u 'u' ++ List.replicate t 't').takeWhile (fun x => x == 'u') =
      List.replicate u 'u'
  | 0 => by cases t <;> simp [List.replicate, List.takeWhile]
  | u + 1 => by simp [List.replicate, List.takeWhile, demo_takeWhile t u]

theorem demo_dropWhile (t : Nat) : ∀ u : Nat,
    (List.replicate u 'u' ++ List.replicate t 't').dropWhile (fun x => x == 'u') =
      List.replicate t 't'
  | 0 => by cases t <;> simp [List.replicate, List.dropWhile]
  | u + 1 => by simp [List.replicate, List.dropWhile, demo_dropWhile t u]

theorem demo_verify_sign (p : Identity) : demoVerify (demoSign p) = some p := by
  unfold demoVerify demoSign
  simp [demo_takeWhile, demo_dropWhile]

/-! ## Lemmas: username uniqueness -/

theorem lookup_id_of_all_operator :
    ∀ fields : List (String × JsVal), fields.all (fun kv => isOperator kv.1) = true →
      fields.lookup "_id" = none
  | [], _ => rfl
  | (k, v) :: rest, h => by
    rw [List.all_cons, Bool.and_eq_true] at h
    have hk : ("_id" == k) = false := by
      cases hb : ("_id" == k)
      · rfl
      · rw [beq_iff_eq] at hb
        subst hb
        exact absurd h.1 (by show ¬ isOperator "_id" = true; decide)
    rw [List.lookup_cons, hk]
    exact lookup_id_of_all_operator rest h.2

/-- Whenever a value can be stored as a user name, looking it up compares for equality
with the stored form. -/
theorem userNameCondition_of_cast {env : Env} {v : JsVal} {name : Option String}
    {cond : Option String → Bool} (hc : castString v = some name)
    (hq : userNameCondition env v = some cond) : cond = fun stored => stored == name := by
  cases v with
  | arr items => cases hc
  | obj fields =>
    simp only [userNameCondition] at hq
    by_cases hany : fields.any (fun kv => isOperator kv.1) = true
    · rw [if_pos hany] at hq
      by_cases hall : fields.all (fun kv => isOperator kv.1) = true
      · have := lookup_id_of_all_operator fields hall
        simp [castString, this] at hc
      · rw [if_neg hall] at hq
        cases hq
    · rw [if_neg hany, hc] at hq
      cases hq
      rfl
  | undefined => simp only [userNameCondition, hc] at hq; cases hq; rfl
  | null => simp only [userNameCondition, hc] at hq; cases hq; rfl
  | bool b => simp only [userNameCondition, hc] at hq; cases hq; rfl
  | num z t => simp only [userNameCondition, hc] at hq; cases hq; rfl
  | str x => simp only [userNameCondition, hc] at hq; cases hq; rfl

/-- The effect of `POST /signup` on the store: nothing, or one appended identity whose
user name no stored identity has. -/
theorem postSignup_store (env : Env) (s : Store) (body : JsObj) (newId : ObjectId)
    (salt : Nat) :
    (postSignup env s body newId salt).1 = s ∨
    ∃ u : User, (∀ v ∈ s.users, v.userName ≠ u.userName) ∧
      (postSignup env s body newId salt).1 = { s with users := s.users ++ [u] } := by
  unfold postSignup
  dsimp only
  split
  · exact Or.inl rfl
  · unfold User.findOne
    cases hq : userNameCondition env (body.get "username") with
    | none => exact Or.inl rfl
    | some cond =>
      dsimp only
      cases hf : s.users.find? (fun u => cond u.userName) with
      | some v => exact Or.inl rfl
      | none =>
        dsimp only
        cases hh : bcryptHash env (body.get "password") salt with
        | error e => exact Or.inl rfl
        | ok hashed =>
          dsimp only
          unfold User.create
          cases hc : castString (body.get "username") with
          | none => exact Or.inl rfl
          | some name =>
            dsimp only
            by_cases hany : (s.users.any fun u => u._id == newId) = true
            · rw [if_pos hany]
              exact Or.inl rfl
            · rw [if_neg hany]
              refine Or.inr ⟨{ _id := newId, userName := name, password := some hashed }, ?_, rfl⟩
              intro v hv
              rw [List.find?_eq_none] at hf
              have := hf v hv
              rw [userNameCondition_of_cast hc hq] at this
              simpa using this

theorem postLogin_store (env : Env) (s : Store) (body : JsObj) (now : Nat) :
    (postLogin env s body now).1 = s := by
  unfold postLogin
  dsimp only
  split
  · rfl
  · rfl
  · split <;> rfl

theorem getNotes_store (env : Env) (s : Store) (u : Identity) (tag : JsVal) :
    (getNotes env s u tag).1 = s := by
  rw [getNotes_eq]
  split <;> rfl

theorem putNotesId_users (env : Env) (s : Store) (u : Identity) (id : String) (body : JsObj)
    (now : Nat) : (putNotesId env s u id body now).1.users = s.users := by
  rw [putNotesId_eq]
  split
  · dsimp only
    split <;> rfl
  · rfl

theorem deleteNotesId_users (env : Env) (s : Store) (u : Identity) (id : String) :
    (deleteNotesId env s u id).1.users = s.users := by
  rw [deleteNotesId_eq]
  split <;> rfl

/-- The effect of `POST /notes` on the store: nothing, or one appended note that carries
the generated id, which no stored note has, and the requester as owner. -/
theorem postNotes_store (s : Store) (u : Identity) (body : JsObj) (newId : ObjectId)
    (now : Nat) :
    ((postNotes s u body newId now).1 = s ∧ (postNotes s u body newId now).2.returned = []) ∨
    ∃ note : Note, note._id = newId ∧ note.userId = u.userId ∧
      (∀ x ∈ s.notes, x._id ≠ newId) ∧
      (postNotes s u body newId now).1 = { s with notes := s.notes ++ [note] } ∧
      (postNotes s u body newId now).2 = .sent 200 (.note note) := by
  unfold postNotes Note.create
  dsimp only
  cases castString (body.get "title") <;> cases castString (body.get "content") <;>
    cases castTags (body.get "tags") <;> try exact Or.inl ⟨rfl, rfl⟩
  rename_i title content tags
  dsimp only
  by_cases hreq : requiredString title = true
  · rw [if_pos hreq]
    by_cases hany : (s.notes.any fun n => n._id == newId) = true
    · rw [if_pos hany]
      exact Or.inl ⟨rfl, rfl⟩
    · rw [if_neg hany]
      refine Or.inr ⟨_, rfl, rfl, ?_, rfl, rfl⟩
      simpa using hany
  · rw [if_neg hreq]
    exact Or.inl ⟨rfl, rfl⟩

/-- What `protect` does: a 401 that leaves the store alone, or the handler's own result
for the identity that the middleware decoded. -/
theorem protect_cases (env : Env) (s : Store) (authHeader : Option String)
    (handler : Identity → Store × Outcome) :
    (∃ msg, protect env s authHeader handler = (s, .sent 401 (.message msg))) ∨
    ∃ user, authMiddleware env authHeader = .next user ∧
      protect env s authHeader handler = handler user := by
  unfold protect
  cases h : authMiddleware env authHeader with
  | next user => exact Or.inr ⟨user, rfl, rfl⟩
  | reply status body =>
    left
    by_cases hno : ∀ user, authMiddleware env authHeader ≠ .next user
    · obtain ⟨msg, hmsg⟩ := authMiddleware_reply env authHeader hno
      rw [h] at hmsg
      cases hmsg
      exact ⟨msg, rfl⟩
    · exfalso
      apply hno
      intro user hu
      rw [h] at hu
      cases hu

/-- The effect of any request on the `User` collection. -/
theorem serve_users (env : Env) (s : Store) (r : Request) :
    (serve env s r).1.users = s.users ∨
    ∃ u : User, (∀ v ∈ s.users, v.userName ≠ u.userName) ∧
      (serve env s r).1.users = s.users ++ [u] := by
  unfold serve
  cases r.route with
  | postNotes =>
    left
    dsimp only
    rcases protect_cases env s r.authorization
      (fun u => postNotes s u r.body r.newId r.now) with ⟨msg, h⟩ | ⟨user, _, h⟩
    · rw [h]
    · rw [h]
      rcases postNotes_store s user r.body r.newId r.now with h1 | ⟨n, _, _, _, h1, _⟩
      · rw [h1.1]
      · rw [h1]
  | getNotes =>
    left
    dsimp only
    rcases protect_cases env s r.authorization
      (fun u => getNotes env s u r.tag) with ⟨msg, h⟩ | ⟨user, _, h⟩
    · rw [h]
    · rw [h, getNotes_store]
  | putNotesId id =>
    left
    dsimp only
    rcases protect_cases env s r.authorization
      (fun u => putNotesId env s u id r.body r.now) with ⟨msg, h⟩ | ⟨user, _, h⟩
    · rw [h]
    · rw [h, putNotesId_users]
  | deleteNotesId id =>
    left
    dsimp only
    rcases protect_cases env s r.authorization
      (fun u => deleteNotesId env s u id) with ⟨msg, h⟩ | ⟨user, _, h⟩
    · rw [h]
    · rw [h, deleteNotesId_users]
  | postSignup =>
    dsimp only
    rcases postSignup_store env s r.body r.newId r.salt with h | ⟨u, hu, h⟩
    · left
      rw [h]
    · right
      exact ⟨u, hu, by rw [h]⟩
  | postLogin =>
    left
    dsimp only
    rw [postLogin_store]

theorem users_nodup_step (env : Env) (s : Store) (r : Request)
    (h : (s.users.map fun u => u.userName).Nodup) :
    ((serve env s r).1.users.map fun u => u.userName).Nodup := by
  rcases serve_users env s r with h1 | ⟨u, hu, h1⟩
  · rw [h1]
    exact h
  · rw [h1, List.map_append, List.nodup_append]
    refine ⟨h, List.nodup_singleton _, ?_⟩
    intro a ha hb
    rw [List.map_singleton, List.mem_singleton] at hb
    obtain ⟨v, hv, rfl⟩ := List.mem_map.1 ha
    exact hu v hv hb

theorem users_nodup_run (env : Env) :
    ∀ (reqs : List Request) (s : Store), (s.users.map fun u => u.userName).Nodup →
      ((run env s reqs).users.map fun u => u.userName).Nodup
  | [], _, h => h
  | r :: rs, s, h => users_nodup_run env rs _ (users_nodup_step env s r h)

/-! ## Lemmas: ownership is fixed at creation -/

theorem updateFirst_ids {p : Note → Bool} {f : Note → Note} (hf : ∀ n, (f n)._id = n._id) :
    ∀ l : List Note, ((updateFirst p f l).1.map fun n => n._id) = l.map fun n => n._id
  | [] => rfl
  | x :: xs => by
    unfold updateFirst
    by_cases hx : p x = true
    · rw [if_pos hx]
      simp [hf]
    · rw [if_neg hx]
      simp [updateFirst_ids hf xs]

theorem updateFirst_mem {p : Note → Bool} {f : Note → Note} {m : Note} :
    ∀ {l : List Note}, m ∈ (updateFirst p f l).1 → m ∈ l ∨ ∃ x ∈ l, m = f x
  | [], h => by simp [updateFirst] at h
  | x :: xs, h => by
    unfold updateFirst at h
    by_cases hx : p x = true
    · rw [if_pos hx] at h
      rcases List.mem_cons.1 h with rfl | h
      · exact Or.inr ⟨x, List.mem_cons_self _ _, rfl⟩
      · exact Or.inl (List.mem_cons_of_mem _ h)
    · rw [if_neg hx] at h
      rcases List.mem_cons.1 h with rfl | h
      · exact Or.inl (List.mem_cons_self _ _)
      · rcases updateFirst_mem h with h | ⟨y, hy, rfl⟩
        · exact Or.inl (List.mem_cons_of_mem _ h)
        · exact Or.inr ⟨y, List.mem_cons_of_mem _ hy, rfl⟩

theorem deleteFirst_sublist {p : Note → Bool} : ∀ l : List Note, (deleteFirst p l).Sublist l
  | [] => List.Sublist.slnil
  | x :: xs => by
    unfold deleteFirst
    by_cases hx : p x = true
    · rw [if_pos hx]
      exact List.sublist_cons_self _ _
    · rw [if_neg hx]
      exact (deleteFirst_sublist xs).cons₂ _

theorem NotesStep.refl (s : Store) : NotesStep s s :=
  ⟨fun m hm => Or.inl ⟨m, hm, rfl, rfl⟩, id⟩

theorem NotesStep.of_notes_eq {s s' : Store} (h : s'.notes = s.notes) : NotesStep s s' := by
  unfold NotesStep
  rw [h]
  exact NotesStep.refl s

theorem postNotes_step (s : Store) (u : Identity) (body : JsObj) (newId : ObjectId)
    (now : Nat) : NotesStep s (postNotes s u body newId now).1 := by
  rcases postNotes_store s u body newId now with h | ⟨note, hid, _, hfresh, h, _⟩
  · rw [h.1]
    exact NotesStep.refl s
  · rw [h]
    constructor
    · intro m hm
      rcases List.mem_append.1 hm with hm | hm
      · exact Or.inl ⟨m, hm, rfl, rfl⟩
      · rw [List.mem_singleton] at hm
        subst hm
        right
        intro x hx
        rw [hid]
        exact hfresh x hx
    · intro hnd
      dsimp only
      rw [List.map_append, List.nodup_append]
      refine ⟨hnd, List.nodup_singleton _, ?_⟩
      intro a ha hb
      rw [List.map_singleton, List.mem_singleton] at hb
      obtain ⟨x, hx, rfl⟩ := List.mem_map.1 ha
      rw [hid] at hb
      exact hfresh x hx hb

theorem putNotesId_step (env : Env) (s : Store) (u : Identity) (id : String) (body : JsObj)
    (now : Nat) : NotesStep s (putNotesId env s u id body now).1 := by
  rw [putNotesId_eq]
  split
  · rename_i i upd _ _
    have hs : NotesStep s { s with notes := (updateFirst
        (NoteQuery.test { _id := some i, userId := u.userId, tags := none })
        (upd.applyTo now) s.notes).1 } := by
      constructor
      · intro m hm
        rcases updateFirst_mem hm with h | ⟨x, hx, rfl⟩
        · exact Or.inl ⟨m, h, rfl, rfl⟩
        · exact Or.inl ⟨x, hx, rfl, rfl⟩
      · intro hnd
        dsimp only
        rw [updateFirst_ids (fun n => applyTo_id upd now n)]
        exact hnd
    dsimp only
    split <;> exact hs
  · exact NotesStep.refl s

theorem deleteNotesId_step (env : Env) (s : Store) (u : Identity) (id : String) :
    NotesStep s (deleteNotesId env s u id).1 := by
  rw [deleteNotesId_eq]
  split
  · rename_i i _
    constructor
    · intro m hm
      exact Or.inl ⟨m, (deleteFirst_sublist s.notes).subset hm, rfl, rfl⟩
    · intro hnd
      exact hnd.sublist ((deleteFirst_sublist s.notes).map _)
  · exact NotesStep.refl s

theorem serve_step (env : Env) (s : Store) (r : Request) : NotesStep s (serve env s r).1 := by
  unfold serve
  cases r.route with
  | postNotes =>
    dsimp only
    rcases protect_cases env s r.authorization
      (fun u => postNotes s u r.body r.newId r.now) with ⟨msg, h⟩ | ⟨user, _, h⟩
    · rw [h]; exact NotesStep.refl s
    · rw [h]; exact postNotes_step s user r.body r.newId r.now
  | getNotes =>
    dsimp only
    rcases protect_cases env s r.authorization
      (fun u => getNotes env s u r.tag) with ⟨msg, h⟩ | ⟨user, _, h⟩
    · rw [h]; exact NotesStep.refl s
    · rw [h, getNotes_store]; exact NotesStep.refl s
  | putNotesId id =>
    dsimp only
    rcases protect_cases env s r.authorization
      (fun u => putNotesId env s u id r.body r.now) with ⟨msg, h⟩ | ⟨user, _, h⟩
    · rw [h]; exact NotesStep.refl s
    · rw [h]; exact putNotesId_step env s user id r.body r.now
  | deleteNotesId id =>
    dsimp only
    rcases protect_cases env s r.authorization
      (fun u => deleteNotesId env s u id) with ⟨msg, h⟩ | ⟨user, _, h⟩
    · rw [h]; exact NotesStep.refl s
    · rw [h]; exact deleteNotesId_step env s user id
  | postSignup =>
    dsimp only
    rcases postSignup_store env s r.body r.newId r.salt with h | ⟨u, _, h⟩
    · rw [h]; exact NotesStep.refl s
    · rw [h]; exact NotesStep.of_notes_eq rfl
  | postLogin =>
    dsimp only
    rw [postLogin_store]
    exact NotesStep.refl s

theorem history_head (env : Env) (s : Store) (reqs : List Request) :
    s ∈ history env s reqs := by
  cases reqs <;> simp [history]

/-- Along any sequence of requests, a note whose id stays present keeps its owner. -/
theorem owner_kept (env : Env) :
    ∀ (reqs : List Request) (s : Store) (n : Note),
      (s.notes.map fun x => x._id).Nodup → n ∈ s.notes →
      (∀ t ∈ history env s reqs, ∃ m ∈ t.notes, m._id = n._id) →
      ∀ t ∈ history env s reqs, ∀ m ∈ t.notes, m._id = n._id → m.userId = n.userId
  | [], s, n, hnd, hn, _, t, ht, m, hm, hid => by
    simp only [history, List.mem_singleton] at ht
    subst ht
    rw [List.inj_on_of_nodup_map hnd hm hn hid]
  | r :: rs, s, n, hnd, hn, hrem, t, ht, m, hm, hid => by
    simp only [history, List.mem_cons] at ht hrem
    rcases ht with rfl | ht
    · rw [List.inj_on_of_nodup_map hnd hm hn hid]
    · obtain ⟨hstep, hnd'⟩ := serve_step env s r
      obtain ⟨n1, hn1, hid1⟩ := hrem _ (Or.inr (history_head env _ rs))
      have hown : n1.userId = n.userId := by
        rcases hstep n1 hn1 with ⟨x, hx, hxi, hxu⟩ | hnew
        · rw [← hxu, List.inj_on_of_nodup_map hnd hx hn (hxi.trans hid1)]
        · exact absurd hid1.symm (hnew n hn)
      have := owner_kept env rs (serve env s r).1 n1 (hnd' hnd) hn1
        (fun t' ht' => by
          obtain ⟨m', hm', hid'⟩ := hrem t' (Or.inr ht')
          exact ⟨m', hm', hid'.trans hid1.symm⟩)
        t ht m hm (hid.trans hid1.symm)
      rw [this, hown]

/-- Note ids are unique in every store reached from a store with unique note ids. -/
theorem notes_nodup_run (env : Env) :
    ∀ (reqs : List Request) (s : Store), (s.notes.map fun n => n._id).Nodup →
      ((run env s reqs).notes.map fun n => n._id).Nodup
  | [], _, h => h
  | r :: rs, s, h => notes_nodup_run env rs _ ((serve_step env s r).2 h)

/-! # The claims -/

/-! ## C1: ownership isolation -/

/-- C1. For every store, every two identities `a` and `b` with different user ids and every
note `n` of the store owned by `a`: whatever tag filter, path id, body and time `b`
supplies, `GET /notes` run as `b` does not return `n`, and `PUT /notes/:id` and
`DELETE /notes/:id` run as `b` leave `n` in the store, unchanged, and do not return it. -/
theorem ownership_isolation (env : Env) (s : Store) (a b : Identity) (n : Note)
    (hab : a.userId ≠ b.userId) (hn : n ∈ s.notes) (hown : n.userId = a.userId)
    (tag : JsVal) (id : String) (body : JsObj) (now : Nat) :
    n ∉ (getNotes env s b tag).2.returned ∧
    n ∈ (putNotesId env s b id body now).1.notes ∧
    n ∉ (putNotesId env s b id body now).2.returned ∧
    n ∈ (deleteNotesId env s b id).1.notes ∧
    n ∉ (deleteNotesId env s b id).2.returned := by
  have hne : n.userId ≠ b.userId := hown ▸ hab
  refine ⟨?_, ?_, ?_, ?_, ?_⟩
  · rw [getNotes_eq]
    cases hq : castNoteFilter env
      { _id := none, userId := b.userId, tags := if truthy tag then some tag else none } with
    | error e => simp [Outcome.returned]
    | ok q =>
      have hu : q.userId = b.userId := castNoteFilter_userId hq
      simp only [Outcome.returned, List.mem_filter, not_and, Bool.not_eq_true]
      intro _
      exact test_foreign (hu ▸ hne)
  · rw [putNotesId_eq]
    split
    · rename_i i upd _ _
      have hk : n ∈ (updateFirst
          (NoteQuery.test { _id := some i, userId := b.userId, tags := none })
          (upd.applyTo now) s.notes).1 :=
        updateFirst_keeps hn
          (test_foreign (q := { _id := some i, userId := b.userId, tags := none }) hne)
      dsimp only
      split <;> exact hk
    · exact hn
  · rw [putNotesId_eq]
    split
    · rename_i i upd _ _
      dsimp only
      split
      · rename_i m hm
        obtain ⟨x, _, hpx, rfl⟩ := updateFirst_result hm
        simp only [Outcome.returned, List.mem_singleton]
        intro h
        have h1 : x.userId = b.userId := test_userId hpx
        rw [h, applyTo_userId] at hne
        exact hne h1
      · simp [Outcome.returned]
    · simp [Outcome.returned]
  · rw [deleteNotesId_eq]
    split
    · rename_i i _
      exact deleteFirst_keeps hn
        (test_foreign (q := { _id := some i, userId := b.userId, tags := none }) hne)
    · exact hn
  · rw [deleteNotesId_eq]
    split <;> simp [Outcome.returned]

/-- Instance of `ownership_isolation`: a store with one note of user 1, requests by user 2
that guess the note's id. -/
theorem ownership_isolation_witness :
    castObjectId "00000000000000000000000a" = some demoNote._id ∧
    demoNote ∉ (getNotes demoEnv demoStore demoMallory (.str "work")).2.returned ∧
    demoNote ∈ (putNotesId demoEnv demoStore demoMallory "00000000000000000000000a"
      [("title", .str "x")] 5).1.notes ∧
    demoNote ∉ (putNotesId demoEnv demoStore demoMallory "00000000000000000000000a"
      [("title", .str "x")] 5).2.returned ∧
    demoNote ∈ (deleteNotesId demoEnv demoStore demoMallory "00000000000000000000000a").1.notes ∧
    demoNote ∉ (deleteNotesId demoEnv demoStore demoMallory "00000000000000000000000a").2.returned :=
  ⟨by decide,
    ownership_isolation demoEnv demoStore demoAlice demoMallory demoNote
      (by decide) (by decide) rfl (.str "work") "00000000000000000000000a"
      [("title", .str "x")] 5⟩

/-! ## C2: tag filtering -/

/-- C2. `GET /notes` run as `u`: with the tag absent or the empty string the response is
exactly the notes whose `userId` is `u` (the same list in both cases); with a non-empty
string `t` it is exactly the notes whose `userId` is `u` and whose `tags` contain `t`; and
when no note qualifies the response is status 200 with the empty list, not an error. -/
theorem tag_filtering (env : Env) (s : Store) (u : Identity) :
    getNotes env s u .undefined =
      (s, .sent 200 (.notes (s.notes.filter fun n => n.userId == u.userId))) ∧
    getNotes env s u (.str "") =
      (s, .sent 200 (.notes (s.notes.filter fun n => n.userId == u.userId))) ∧
    (∀ t : String, t ≠ "" →
      getNotes env s u (.str t) =
        (s, .sent 200 (.notes (s.notes.filter fun n => n.userId == u.userId && n.hasTag t)))) ∧
    ((∀ n ∈ s.notes, n.userId ≠ u.userId) →
      getNotes env s u .undefined = (s, .sent 200 (.notes [])) ∧
      getNotes env s u (.str "") = (s, .sent 200 (.notes []))) ∧
    (∀ t : String, t ≠ "" → (∀ n ∈ s.notes, ¬ (n.userId = u.userId ∧ n.hasTag t = true)) →
      getNotes env s u (.str t) = (s, .sent 200 (.notes []))) := by
  have h0 : getNotes env s u .undefined =
      (s, .sent 200 (.notes (s.notes.filter fun n => n.userId == u.userId))) := by
    rw [getNotes_eq]
    simp only [truthy, castNoteFilter, castFilterId, castFilterTags, bne_self_eq_false,
      Bool.false_eq_true, if_false]
    congr 4
    funext n
    simp [NoteQuery.test]
  have h1 : getNotes env s u (.str "") =
      (s, .sent 200 (.notes (s.notes.filter fun n => n.userId == u.userId))) := by
    rw [getNotes_eq]
    simp only [truthy, castNoteFilter, castFilterId, castFilterTags, bne_self_eq_false,
      Bool.false_eq_true, if_false]
    congr 4
    funext n
    simp [NoteQuery.test]
  have h2 : ∀ t : String, t ≠ "" →
      getNotes env s u (.str t) =
        (s, .sent 200 (.notes (s.notes.filter fun n => n.userId == u.userId && n.hasTag t))) := by
    intro t ht
    rw [getNotes_eq]
    have htr : (t != "") = true := by simpa using ht
    simp only [truthy, htr, castNoteFilter, castFilterId, castFilterTags, tagsCondition,
      if_true, Option.map_some']
    congr 4
  refine ⟨h0, h1, h2, ?_, ?_⟩
  · intro hnone
    have hnil : (s.notes.filter fun n => n.userId == u.userId) = [] := by
      rw [List.filter_eq_nil_iff]
      intro n hn
      simpa using hnone n hn
    rw [h0, h1, hnil]
    exact ⟨rfl, rfl⟩
  · intro t ht hnone
    have hnil : (s.notes.filter fun n => n.userId == u.userId && n.hasTag t) = [] := by
      rw [List.filter_eq_nil_iff]
      intro n hn
      simpa using hnone n hn
    rw [h2 t ht, hnil]

/-- Instance of `tag_filtering`: the non-empty tag `work` and the unmatched tag `home`. -/
theorem tag_filtering_witness :
    "work" ≠ "" ∧
    getNotes demoEnv demoStore demoAlice (.str "work") =
      (demoStore, .sent 200 (.notes
        (demoStore.notes.filter fun n => n.userId == demoAlice.userId && n.hasTag "work"))) ∧
    getNotes demoEnv demoStore demoAlice (.str "home") = (demoStore, .sent 200 (.notes [])) :=
  ⟨by decide, (tag_filtering demoEnv demoStore demoAlice).2.2.1 "work" (by decide),
    (tag_filtering demoEnv demoStore demoAlice).2.2.2.2 "home" (by decide) (by decide)⟩

/-! ## C3: signup conflict -/

/-- C3 as stated fails: the store holds the username `alice`, yet a signup for `alice`
whose password is the empty string (or is absent) is answered 400, not 409. -/
theorem signup_conflict_counterexample :
    (∃ u ∈ demoStore.users, u.userName = some "alice") ∧
    postSignup demoEnv demoStore [("username", .str "alice"), ("password", .str "")] 2 0 =
      (demoStore, .sent 400 (.message "Missing fields")) ∧
    (postSignup demoEnv demoStore [("username", .str "alice")] 2 0).2.status = some 400 := by
  decide

/-- C3, amended. When the store holds an identity with username `x` and the body carries
`username: x`, `POST /signup` creates no identity; it answers 409 when `x` is non-empty and
the password is truthy, and answers 400 (the missing-fields guard, which runs first) when
the password is falsy or `x` is empty. -/
theorem signup_conflict (env : Env) (s : Store) (x : String) (body : JsObj)
    (newId : ObjectId) (salt : Nat)
    (hx : ∃ u ∈ s.users, u.userName = some x) (hu : body.get "username" = .str x) :
    (postSignup env s body newId salt).1 = s ∧
    (x ≠ "" → truthy (body.get "password") = true →
      (postSignup env s body newId salt).2 = .sent 409 (.message "Same user name exists")) ∧
    ((x = "" ∨ truthy (body.get "password") = false) →
      (postSignup env s body newId salt).2 = .sent 400 (.message "Missing fields")) := by
  obtain ⟨v, hv⟩ := find_userName_of_mem hx
  unfold postSignup
  simp only [hu, findOne_str, hv, truthy]
  refine ⟨?_, ?_, ?_⟩
  · split <;> rfl
  · intro hne hp
    have : (x != "") = true := by simpa using hne
    simp [this, hp]
  · rintro (rfl | hp)
    · simp
    · simp [hp]

/-- Instance of `signup_conflict`: a second signup for `alice` with another password. -/
theorem signup_conflict_witness :
    (∃ u ∈ demoStore.users, u.userName = some "alice") ∧
    postSignup demoEnv demoStore [("username", .str "alice"), ("password", .str "pw2")] 2 0 =
      (demoStore, .sent 409 (.message "Same user name exists")) :=
  ⟨by decide,
    Prod.ext
      (signup_conflict demoEnv demoStore "alice"
        [("username", .str "alice"), ("password", .str "pw2")] 2 0 (by decide) rfl).1
      ((signup_conflict demoEnv demoStore "alice"
        [("username", .str "alice"), ("password", .str "pw2")] 2 0 (by decide) rfl).2.1
        (by decide) rfl)⟩

/-! ## C4: signup, login, verify -/

/-- C4. For every non-empty username and password, if bcrypt accepts what it hashed and
`jwt` verifies what it signed: a signup with a free username and a fresh id succeeds; and
after any successful `POST /signup`, `POST /login` with the same body answers 200 with a
token, and `authMiddleware`, given that token as the credential of the header (for
instance as `Bearer <token>`, a token having no space), attaches an identity whose
`userId` is the `_id` of the identity that the signup stored. -/
theorem signup_login_roundtrip (env : Env) (s : Store) (username password : String)
    (newId : ObjectId) (salt now : Nat)
    (hu : username ≠ "") (hp : password ≠ "")
    (hbcrypt : ∀ salt plain, env.compare plain (env.hash salt plain) = true)
    (hjwt : ∀ payload, env.verify (env.sign payload env.JWT_SECRET) env.JWT_SECRET = some payload) :
    ((∀ u ∈ s.users, u.userName ≠ some username) → (∀ u ∈ s.users, u._id ≠ newId) →
      (postSignup env s [("username", .str username), ("password", .str password)]
        newId salt).2 = .sent 200 (.message "User created")) ∧
    ((postSignup env s [("username", .str username), ("password", .str password)]
        newId salt).2 = .sent 200 (.message "User created") →
      ∃ (created : User) (token : String) (user : Identity),
        (postSignup env s [("username", .str username), ("password", .str password)]
          newId salt).1 = { s with users := s.users ++ [created] } ∧
        created.userName = some username ∧
        postLogin env { s with users := s.users ++ [created] }
          [("username", .str username), ("password", .str password)] now =
          ({ s with users := s.users ++ [created] }, .sent 200 (.token token)) ∧
        (∀ h : String, headerToken h = some token →
          authMiddleware env (some h) = .next user) ∧
        (' ' ∉ token.data → authMiddleware env (some ("Bearer " ++ token)) = .next user) ∧
        user.userId = created._id) := by
  refine ⟨signup_succeeds env s username password newId salt hu hp, ?_⟩
  intro hsignup
  obtain ⟨hfree, hs'⟩ := signup_created hsignup
  have hmw : ∀ h : String,
      headerToken h = some (env.sign { userId := newId, iat := now } env.JWT_SECRET) →
        authMiddleware env (some h) = .next { userId := newId, iat := now } := by
    intro h hh
    apply (authMiddleware_next_iff env _ _).2
    refine ⟨h, _, rfl, ?_, hh, hjwt _⟩
    intro he
    have h0 : headerToken "" = none := by decide
    rw [he, h0] at hh
    cases hh
  refine ⟨{ _id := newId, userName := some username, password := some (env.hash salt password) },
    env.sign { userId := newId, iat := now } env.JWT_SECRET, { userId := newId, iat := now },
    hs', rfl, ?_, hmw, ?_, rfl⟩
  · have hgu : JsObj.get [("username", JsVal.str username), ("password", .str password)]
        "username" = .str username := rfl
    have hgp : JsObj.get [("username", JsVal.str username), ("password", .str password)]
        "password" = .str password := rfl
    unfold postLogin
    simp only [hgu, hgp, findOne_str, List.find?_append, hfree, Option.none_or]
    simp [bcryptCompare, hbcrypt]
  · intro hformat
    apply hmw
    refine (headerToken_iff _ _).2 ⟨"Bearer".data, by decide, hformat, Or.inl ?_⟩
    simp [String.data_append]

/-- Instance of `signup_login_roundtrip`: `alice` signs up in the empty store, logs in and
presents the token. -/
theorem signup_login_roundtrip_witness :
    "alice" ≠ "" ∧ "pw1" ≠ "" ∧
    (postSignup demoEnv Store.empty [("username", .str "alice"), ("password", .str "pw1")]
      1 0).2 = .sent 200 (.message "User created") ∧
    ∃ (created : User) (token : String) (user : Identity),
      (postSignup demoEnv Store.empty [("username", .str "alice"), ("password", .str "pw1")]
        1 0).1 = { Store.empty with users := Store.empty.users ++ [created] } ∧
      created.userName = some "alice" ∧
      postLogin demoEnv { Store.empty with users := Store.empty.users ++ [created] }
        [("username", .str "alice"), ("password", .str "pw1")] 3 =
        ({ Store.empty with users := Store.empty.users ++ [created] },
          .sent 200 (.token token)) ∧
      (∀ h : String, headerToken h = some token →
        authMiddleware demoEnv (some h) = .next user) ∧
      (' ' ∉ token.data → authMiddleware demoEnv (some ("Bearer " ++ token)) = .next user) ∧
      user.userId = created._id :=
  ⟨by decide, by decide, by decide,
    (signup_login_roundtrip demoEnv Store.empty "alice" "pw1" 1 0 3 (by decide) (by decide)
      (fun _ _ => by simp [demoEnv]) (fun p => demo_verify_sign p)).2 (by decide)⟩

/-! ## C5: the identity middleware -/

/-- C5 as stated fails: for the header values `Bearer<TAB>Juttt` and `Bearer  Juttt` (two
spaces) the second whitespace-separated token is `Juttt`, a credential that verifies, yet
the middleware passes `undefined`, respectively the empty string, to verification and
answers 401. -/
theorem auth_middleware_counterexample :
    secondWhitespaceToken "Bearer\tJuttt" = some "Juttt" ∧
    secondWhitespaceToken "Bearer  Juttt" = some "Juttt" ∧
    demoEnv.verify "Juttt" demoEnv.JWT_SECRET = some { userId := 1, iat := 3 } ∧
    headerToken "Bearer\tJuttt" = none ∧
    headerToken "Bearer  Juttt" = some "" ∧
    authMiddleware demoEnv (some "Bearer\tJuttt") = .reply 401 (.message "Invalid token") ∧
    authMiddleware demoEnv (some "Bearer  Juttt") = .reply 401 (.message "Invalid token") := by
  decide

/-- C5, amended. `authMiddleware` calls `next()` with the decoded identity exactly when the
header is present and non-empty, has a piece at index 1 of its split at single spaces, and
that piece verifies; in every other case it answers 401 and the protected handler does not
run. The piece at index 1 is the text between the first space and the next space (or the
end of the value), whatever precedes the first space. -/
theorem auth_middleware (env : Env) (authHeader : Option String) :
    (∀ user, authMiddleware env authHeader = .next user ↔
      ∃ h c, authHeader = some h ∧ h ≠ "" ∧ headerToken h = some c ∧
        env.verify c env.JWT_SECRET = some user) ∧
    ((∀ user, authMiddleware env authHeader ≠ .next user) →
      ∃ msg, authMiddleware env authHeader = .reply 401 (.message msg)) ∧
    (∀ (s : Store) (handler : Identity → Store × Outcome),
      (∀ user, authMiddleware env authHeader = .next user →
        protect env s authHeader handler = handler user) ∧
      ((∀ user, authMiddleware env authHeader ≠ .next user) →
        ∃ msg, protect env s authHeader handler = (s, .sent 401 (.message msg)))) ∧
    (∀ h c : String, headerToken h = some c ↔
      ∃ scheme : List Char, ' ' ∉ scheme ∧ ' ' ∉ c.data ∧
        (h.data = scheme ++ ' ' :: c.data ∨
          ∃ rest, h.data = scheme ++ ' ' :: (c.data ++ ' ' :: rest))) := by
  refine ⟨authMiddleware_next_iff env authHeader, authMiddleware_reply env authHeader, ?_,
    headerToken_iff⟩
  intro s handler
  constructor
  · intro user hnext
    unfold protect
    rw [hnext]
  · intro hno
    obtain ⟨msg, hmsg⟩ := authMiddleware_reply env authHeader hno
    exact ⟨msg, by unfold protect; rw [hmsg]⟩

/-- Instance of `auth_middleware`: a valid credential behind the scheme word `Token`. -/
theorem auth_middleware_witness :
    authMiddleware demoEnv (some "Token Juttt") = .next { userId := 1, iat := 3 } :=
  ((auth_middleware demoEnv (some "Token Juttt")).1 { userId := 1, iat := 3 }).2
    ⟨"Token Juttt", "Juttt", rfl, by decide, by decide, by decide⟩

/-! ## C6: update of a missing or foreign note -/

/-- C6 as stated fails: no note of the store has the id `abc`, yet `PUT /notes/abc` does not
complete with a null result: casting `abc` to an ObjectId raises a `CastError`. The same
happens for a well-formed id when a body field cannot be cast to its schema type. -/
theorem update_missing_counterexample :
    (∀ n ∈ demoStore.notes, ¬ n.isOwned "abc" demoAlice.userId) ∧
    putNotesId demoEnv demoStore demoAlice "abc" [("title", .str "x")] 9 =
      (demoStore, .rejected .castError) ∧
    (∀ n ∈ demoStore.notes, ¬ n.isOwned "00000000000000000000000b" demoAlice.userId) ∧
    putNotesId demoEnv demoStore demoAlice "00000000000000000000000b"
      [("title", .arr [.str "x"])] 9 = (demoStore, .rejected .castError) := by
  decide

/-- C6, amended. If no note of the store has both the id `id` and the owner `u`, then
`PUT /notes/:id` leaves the store unchanged and returns no note; it completes with status
200 and a null body whenever `id` casts to an ObjectId and the body fields cast to their
schema types, and is rejected with a `CastError` otherwise. -/
theorem update_missing (env : Env) (s : Store) (u : Identity) (id : String) (body : JsObj)
    (now : Nat) (hnone : ∀ n ∈ s.notes, ¬ n.isOwned id u.userId) :
    (putNotesId env s u id body now).1 = s ∧
    (putNotesId env s u id body now).2.returned = [] ∧
    ((castObjectId id).isSome = true →
      (castNoteUpdate (body.get "title") (body.get "content") (body.get "tags")).isSome = true →
      (putNotesId env s u id body now).2 = .sent 200 .null) ∧
    ((castObjectId id = none ∨
        castNoteUpdate (body.get "title") (body.get "content") (body.get "tags") = none) →
      (putNotesId env s u id body now).2 = .rejected .castError) := by
  rw [putNotesId_eq]
  cases hid : castObjectId id with
  | none => simp [Outcome.returned]
  | some i =>
    cases hupd : castNoteUpdate (body.get "title") (body.get "content") (body.get "tags") with
    | none => simp [Outcome.returned]
    | some upd =>
      have hno := updateFirst_none (f := upd.applyTo now) (test_of_not_owned hid hnone)
      simp [hno, Outcome.returned]

/-- Instance of `update_missing`: user 2 addresses the note of user 1 by its id. -/
theorem update_missing_witness :
    (∀ n ∈ demoStore.notes, ¬ n.isOwned "00000000000000000000000a" demoMallory.userId) ∧
    putNotesId demoEnv demoStore demoMallory "00000000000000000000000a"
      [("title", .str "x"), ("tags", .arr [.str "y"])] 9 = (demoStore, .sent 200 .null) :=
  ⟨by decide,
    Prod.ext
      (update_missing demoEnv demoStore demoMallory "00000000000000000000000a"
        [("title", .str "x"), ("tags", .arr [.str "y"])] 9 (by decide)).1
      ((update_missing demoEnv demoStore demoMallory "00000000000000000000000a"
        [("title", .str "x"), ("tags", .arr [.str "y"])] 9 (by decide)).2.2.1 rfl rfl)⟩

/-! ## C7: delete idempotence -/

/-- C7 as stated fails: `DELETE /notes/abc` does not succeed even once; casting `abc` to
an ObjectId raises a `CastError` and the completion response is not sent. -/
theorem delete_idempotent_counterexample :
    deleteNotesId demoEnv demoStore demoAlice "abc" = (demoStore, .rejected .castError) ∧
    (deleteNotesId demoEnv demoStore demoAlice "abc").2 ≠ .sent 200 (.message "Note deleted") := by
  decide

/-- C7, amended. Note ids are unique in every store reached from the empty one. Each call
of `DELETE /notes/:id` as `u` removes at most one note, and only a note with id `id` and
owner `u`. When `id` casts to an ObjectId, two calls in a row both complete with the same
200 response, and in a store whose note ids are unique the second call changes nothing.
When `id` does not cast, the call is rejected with a `CastError`. -/
theorem delete_idempotent (env : Env) (s : Store) (u : Identity) (id : String) :
    (∀ reqs : List Request, ((run env Store.empty reqs).notes.map fun n => n._id).Nodup) ∧
    ((deleteNotesId env s u id).1 = s ∨
      ∃ n ∈ s.notes, n.isOwned id u.userId ∧
        (deleteNotesId env s u id).1 = { s with notes := s.notes.erase n }) ∧
    ((castObjectId id).isSome = true →
      (deleteNotesId env s u id).2 = .sent 200 (.message "Note deleted") ∧
      (deleteNotesId env (deleteNotesId env s u id).1 u id).2 =
        .sent 200 (.message "Note deleted") ∧
      ((s.notes.map fun n => n._id).Nodup →
        (deleteNotesId env (deleteNotesId env s u id).1 u id).1 =
          (deleteNotesId env s u id).1)) ∧
    (castObjectId id = none → deleteNotesId env s u id = (s, .rejected .castError)) := by
  refine ⟨fun reqs => notes_nodup_run env reqs Store.empty List.nodup_nil, ?_⟩
  simp only [deleteNotesId_eq]
  cases hid : castObjectId id with
  | none => simp
  | some i =>
    have hp : ∀ n : Note,
        NoteQuery.test { _id := some i, userId := u.userId, tags := none } n = true →
          n._id = i := fun n h => test_id rfl h
    refine ⟨?_, ?_, ?_⟩
    · rcases deleteFirst_erase
          (p := NoteQuery.test { _id := some i, userId := u.userId, tags := none })
          s.notes with h | ⟨n, hn, hpn, h⟩
      · left
        simp only [h]
      · right
        refine ⟨n, hn, ⟨?_, test_userId hpn⟩, ?_⟩
        · rw [hp n hpn]
          exact hid
        · simp only [h]
    · intro _
      refine ⟨rfl, rfl, ?_⟩
      intro hnd
      simp only [deleteFirst_idem hp s.notes hnd]
    · intro h
      cases h

/-- Instance of `delete_idempotent`: user 1 deletes the note `0x0a` twice. -/
theorem delete_idempotent_witness :
    (castObjectId "00000000000000000000000a").isSome = true ∧
    (demoStore.notes.map fun n => n._id).Nodup ∧
    (deleteNotesId demoEnv demoStore demoAlice "00000000000000000000000a").1.notes = [] ∧
    (deleteNotesId demoEnv demoStore demoAlice "00000000000000000000000a").2 =
      .sent 200 (.message "Note deleted") ∧
    (deleteNotesId demoEnv
      (deleteNotesId demoEnv demoStore demoAlice "00000000000000000000000a").1 demoAlice
      "00000000000000000000000a").2 = .sent 200 (.message "Note deleted") ∧
    (deleteNotesId demoEnv
      (deleteNotesId demoEnv demoStore demoAlice "00000000000000000000000a").1 demoAlice
      "00000000000000000000000a").1 =
      (deleteNotesId demoEnv demoStore demoAlice "00000000000000000000000a").1 :=
  ⟨by decide, by decide, by decide,
    ((delete_idempotent demoEnv demoStore demoAlice "00000000000000000000000a").2.2.1
      (by decide)).1,
    ((delete_idempotent demoEnv demoStore demoAlice "00000000000000000000000a").2.2.1
      (by decide)).2.1,
    ((delete_idempotent demoEnv demoStore demoAlice "00000000000000000000000a").2.2.1
      (by decide)).2.2 (by decide)⟩

/-! ## C8: note creation without a title -/

/-- C8 as stated fails: a `POST /notes` whose title is the empty string (or absent) is not
answered with status 400; the `ValidationError` escapes the handler, which sends nothing. -/
theorem create_validation_counterexample :
    postNotes demoStore demoAlice [("title", .str ""), ("content", .str "c")] 11 7 =
      (demoStore, .rejected .validationError) ∧
    (postNotes demoStore demoAlice [("title", .str ""), ("content", .str "c")] 11 7).2.status ≠
      some 400 ∧
    (postNotes demoStore demoAlice [("content", .str "c")] 11 7).2.status ≠ some 400 := by
  decide

/-- C8, amended. For every authenticated `POST /notes` whose title is absent or the empty
string, `Note.create` fails with a `ValidationError`: the store is unchanged, no note is
returned, and the handler sends no response of its own (so no status 400 either). -/
theorem create_validation (s : Store) (user : Identity) (body : JsObj) (newId : ObjectId)
    (now : Nat) (ht : body.get "title" = .undefined ∨ body.get "title" = .str "") :
    postNotes s user body newId now = (s, .rejected .validationError) ∧
    (postNotes s user body newId now).2.returned = [] ∧
    (postNotes s user body newId now).2.status = none := by
  have h : postNotes s user body newId now = (s, .rejected .validationError) := by
    unfold postNotes
    dsimp only
    rw [create_untitled]
    rcases ht with ht | ht <;> rw [ht] <;> rfl
  rw [h]
  exact ⟨rfl, rfl, rfl⟩

/-- Instance of `create_validation`: a body with content and tags but no title. -/
theorem create_validation_witness :
    JsObj.get [("content", .str "c"), ("tags", .arr [.str "work"])] "title" = .undefined ∧
    postNotes demoStore demoAlice [("content", .str "c"), ("tags", .arr [.str "work"])] 11 7 =
      (demoStore, .rejected .validationError) :=
  ⟨rfl, (create_validation demoStore demoAlice
    [("content", .str "c"), ("tags", .arr [.str "work"])] 11 7 (Or.inl rfl)).1⟩

/-! ## C9: ownership is fixed at creation -/

/-- C9. The note that `POST /notes` creates and returns is owned by the identity that
`authMiddleware` decoded from the token, whatever the body carries (a `userId` key
included); and along every sequence of requests, by any identities and with any bodies,
started in a store with unique note ids (as every store reached from the empty one is), a
note that remains in the store keeps the `userId` it has. -/
theorem ownership_fixed (env : Env) :
    (∀ (s : Store) (user : Identity) (body : JsObj) (newId : ObjectId) (now : Nat),
      ∀ n ∈ (postNotes s user body newId now).2.returned,
        n.userId = user.userId ∧ n ∈ (postNotes s user body newId now).1.notes) ∧
    (∀ (s : Store) (r : Request),
      ∀ n ∈ (serve env s { r with route := .postNotes }).2.returned,
        ∃ user, authMiddleware env r.authorization = .next user ∧ n.userId = user.userId ∧
          n ∈ (serve env s { r with route := .postNotes }).1.notes) ∧
    (∀ (reqs : List Request) (s : Store) (n : Note),
      (s.notes.map fun x => x._id).Nodup → n ∈ s.notes →
      (∀ t ∈ history env s reqs, ∃ m ∈ t.notes, m._id = n._id) →
      ∀ t ∈ history env s reqs, ∀ m ∈ t.notes, m._id = n._id → m.userId = n.userId) ∧
    (∀ reqs : List Request, ((run env Store.empty reqs).notes.map fun n => n._id).Nodup) := by
  have ha : ∀ (s : Store) (user : Identity) (body : JsObj) (newId : ObjectId) (now : Nat),
      ∀ n ∈ (postNotes s user body newId now).2.returned,
        n.userId = user.userId ∧ n ∈ (postNotes s user body newId now).1.notes := by
    intro s user body newId now n hn
    rcases postNotes_store s user body newId now with h | ⟨note, _, hown, _, hs, hout⟩
    · rw [h.2] at hn
      cases hn
    · rw [hout] at hn
      simp only [Outcome.returned, List.mem_singleton] at hn
      subst hn
      rw [hs]
      exact ⟨hown, by simp⟩
  refine ⟨ha, ?_, owner_kept env,
    fun reqs => notes_nodup_run env reqs Store.empty List.nodup_nil⟩
  intro s r n hn
  unfold serve at hn ⊢
  dsimp only at hn ⊢
  rcases protect_cases env s r.authorization
    (fun u => postNotes s u r.body r.newId r.now) with ⟨msg, h⟩ | ⟨user, hu, h⟩
  · rw [h] at hn
    cases hn
  · rw [h] at hn ⊢
    exact ⟨user, hu, ha s user r.body r.newId r.now n hn⟩

/-- Instance of `ownership_fixed`: user 1 creates a note with a body that names user 2 as
`userId`; and the note of user 1 in `demoStore` keeps its owner through an update attempt
by user 2, an update by user 1 and a signup. -/
theorem ownership_fixed_witness :
    (postNotes demoStore demoAlice
      [("title", .str "t"), ("userId", .str "000000000000000000000002")] 11 7).2.returned =
      [{ _id := 11, title := some "t", content := none, tags := some [], userId := 1,
         createdAt := 7, updatedAt := 7 }] ∧
    (demoStore.notes.map fun x => x._id).Nodup ∧ demoNote ∈ demoStore.notes ∧
    (∀ t ∈ history demoEnv demoStore demoRequests, ∃ m ∈ t.notes, m._id = demoNote._id) ∧
    (∀ t ∈ history demoEnv demoStore demoRequests, ∀ m ∈ t.notes,
      m._id = demoNote._id → m.userId = demoNote.userId) :=
  ⟨by decide, by decide, by decide, by decide,
    (ownership_fixed demoEnv).2.2.1 demoRequests demoStore demoNote (by decide) (by decide)
      (by decide)⟩

/-! ## C10: username uniqueness -/

/-- C10. In every store reached from the empty store by serving any sequence of requests
one after the other, no two identities have the same stored user name (compared as
stored); and no request changes, removes or reorders an existing identity: the `User`
collection after a request has the collection before it as a prefix. -/
theorem username_unique (env : Env) (reqs : List Request) :
    ((run env Store.empty reqs).users.map fun u => u.userName).Nodup ∧
    (∀ (s : Store) (r : Request), s.users <+: (serve env s r).1.users) := by
  refine ⟨users_nodup_run env reqs Store.empty List.nodup_nil, ?_⟩
  intro s r
  rcases serve_users env s r with h1 | ⟨u, _, h1⟩
  · rw [h1]
  · rw [h1]
    exact List.prefix_append _ _

/-- Instance of `username_unique`: `alice`, `Alice` and `alice ` are three user names, and
a second signup for `alice` adds nothing. -/
theorem username_unique_witness :
    (run demoEnv Store.empty
      [signupRequest "alice" "pw1" 1, signupRequest "Alice" "pw2" 2,
        signupRequest "alice" "pw3" 3, signupRequest "alice " "pw4" 4]).users.map
        (fun u => u.userName) = [some "alice", some "Alice", some "alice "] ∧
    ((run demoEnv Store.empty
      [signupRequest "alice" "pw1" 1, signupRequest "Alice" "pw2" 2,
        signupRequest "alice" "pw3" 3, signupRequest "alice " "pw4" 4]).users.map
        fun u => u.userName).Nodup :=
  ⟨by decide, (username_unique demoEnv _).1⟩

end NotesBackend
